import Mathlib

/-!
Shallow embedding of the `dagster-omics` transfer pipeline
(`src/dagster_omics/assets/nemo_manifest.py` and `src/dagster_omics/sensor.py`),
together with theorems settling the specification claims about it.

Bytes are modelled as `Nat`, byte buffers as `List Nat`, Python strings as
Lean `String`.  Network and storage effects are modelled by passing the
outcome of each external call explicitly (the outcome of each HTTP download
attempt, of each S3 upload attempt, of the tar extraction); the functions
below then reproduce, step for step, the control flow of the Python source.
-/

/-- Configuration for a single NeMO file entry (`class NeMOFile(Config)`,
nemo_manifest.py lines 38-45). -/
structure NeMOFile where
  file_id : String
  md5 : String
  size : Int
  url : String
  sample_id : String
  path_prefix : String
deriving DecidableEq, Repr

/-! ## Streaming downloader (`download_file`, nemo_manifest.py lines 225-283) -/

/-- The three transient exception classes caught by `download_file`'s
`except` clause (lines 269-271): `ChunkedEncodingError`, `ConnectionError`,
`ReadTimeout`. -/
inductive TransientKind
  | chunkedEncoding
  | connection
  | readTimeout
deriving DecidableEq, Repr

/-- Behaviour of one HTTP download attempt, as observed by `download_file`:
* `connFail k`: `requests.get` itself raises a transient exception of kind
  `k` before any byte is written;
* `statusError`: `response.raise_for_status()` raises `HTTPError`
  (line 234), which is not in the `except` tuple;
* `body contentLength chunks interruption`: the response carries the given
  `content-length` header (`none` = header absent) and the body read yields
  `chunks` in order; afterwards the read either completes
  (`interruption = none`) or raises a transient exception of the given kind
  (`interruption = some k`). -/
inductive AttemptSpec
  | connFail (k : TransientKind)
  | statusError
  | body (contentLength : Option Nat) (chunks : List (List Nat)) (interruption : Option TransientKind)

/-- Result of streaming the body chunks (the `for chunk in
response.iter_content(...)` loop, lines 244-253): either the loop completes,
or the progress computation `int((downloaded / total_size) * 100)` (line 250)
raises `ZeroDivisionError` because `total_size = 0`. -/
inductive StreamOutcome
  | completed
  | zeroDiv
deriving DecidableEq, Repr

/-- The chunk loop of `download_file` (lines 244-253).  Empty ("falsy")
chunks are skipped (`if chunk:`); every nonempty chunk is written to the
output file before the percentage is computed, so on `ZeroDivisionError`
the chunk that triggered it has already been written.  Returns the loop
outcome and the bytes written to the output file. -/
def streamChunks (totalSize : Nat) : List (List Nat) → Nat → Nat → List Nat →
    StreamOutcome × List Nat
  | [], _, _, written => (.completed, written)
  | c :: rest, downloaded, lastPct, written =>
    if c.isEmpty then
      streamChunks totalSize rest downloaded lastPct written
    else
      let written2 := written ++ c
      let downloaded2 := downloaded + c.length
      if totalSize = 0 then
        (.zeroDiv, written2)
      else
        let pct := downloaded2 * 100 / totalSize
        let lastPct2 := if lastPct + 10 ≤ pct then pct else lastPct
        streamChunks totalSize rest downloaded2 lastPct2 written2

/-- Ways `download_file` terminates exceptionally:
* `httpStatus`: `raise_for_status` raised (not caught, propagates);
* `zeroDiv`: `ZeroDivisionError` from the progress computation (not caught);
* `checksumMismatch`: the `ValueError` of lines 265-267 (not caught);
* `transient k`: the bare `raise` of line 281, re-raising the underlying
  transient exception on the final attempt;
* `exhausted`: the `Exception` of line 283 (reached only if the `for` loop
  finishes without returning or raising). -/
inductive DlError
  | httpStatus
  | zeroDiv
  | checksumMismatch (expected got : String)
  | transient (k : TransientKind)
  | exhausted (fid : String) (attempts : Nat)
deriving DecidableEq, Repr

/-- The `for attempt in range(max_retries)` loop of `download_file`
(lines 230-281).  `remaining` counts the iterations left
(`maxRetries - attempt` at entry), `attempt` is the Python loop index, and
the second component of the result is the state of the output file on disk
(`none` = absent, `some bytes` = present with those contents).  `md5hex`
models `hashlib.md5(...).hexdigest()` applied to all bytes fed to the
running digest. -/
def downloadLoop (md5hex : List Nat → String) (cfg : NeMOFile)
    (attempts : Nat → AttemptSpec) (maxRetries : Nat) :
    Nat → Nat → Option (List Nat) → Except DlError Unit × Option (List Nat)
  | 0, _, file => (.error (.exhausted cfg.file_id maxRetries), file)
  | remaining + 1, attempt, file =>
    match attempts attempt with
    | .connFail k =>
      if attempt < maxRetries - 1 then
        downloadLoop md5hex cfg attempts maxRetries remaining (attempt + 1) none
      else
        (.error (.transient k), file)
    | .statusError => (.error .httpStatus, file)
    | .body contentLength chunks interruption =>
      let totalSize := contentLength.getD 0
      match streamChunks totalSize chunks 0 0 [] with
      | (.zeroDiv, written) => (.error .zeroDiv, some written)
      | (.completed, written) =>
        match interruption with
        | some k =>
          if attempt < maxRetries - 1 then
            downloadLoop md5hex cfg attempts maxRetries remaining (attempt + 1) none
          else
            (.error (.transient k), some written)
        | none =>
          let file_md5 := md5hex written
          if file_md5 = cfg.md5 then
            (.ok (), some written)
          else
            (.error (.checksumMismatch cfg.md5 file_md5), some written)

/-- `download_file(config, output_path, context)` (lines 225-283), with
`max_retries = 3` (line 226).  Returns the control-flow outcome together
with the final state of `output_path` on disk. -/
def download_file (md5hex : List Nat → String) (cfg : NeMOFile)
    (attempts : Nat → AttemptSpec) : Except DlError Unit × Option (List Nat) :=
  downloadLoop md5hex cfg attempts 3 3 0 none

/-! ## Resilient uploader (`upload_with_retry`, nemo_manifest.py lines 213-222) -/

/-- Behaviour of one `s3_client.upload_file` call: success, or a
`botocore.exceptions.ClientError` carrying the given error code. -/
inductive UploadOutcome
  | ok
  | clientError (code : String)

/-- The `for attempt in range(max_retries)` loop of `upload_with_retry`
(lines 214-222).  `remaining` counts iterations left, `attempt` is the
Python loop index; the second component of the result is the number of
upload attempts performed.  A `ClientError` whose code is `"InvalidPart"`
is retried while attempts remain (`attempt < max_retries - 1`); any other
code, or `"InvalidPart"` on the final attempt, is re-raised. -/
def uploadLoop (outcome : Nat → UploadOutcome) (maxRetries : Int) :
    Nat → Nat → Except String Unit × Nat
  | 0, attempt => (.ok (), attempt)
  | remaining + 1, attempt =>
    match outcome attempt with
    | .ok => (.ok (), attempt + 1)
    | .clientError code =>
      if code = "InvalidPart" ∧ (attempt : Int) < maxRetries - 1 then
        uploadLoop outcome maxRetries remaining (attempt + 1)
      else
        (.error code, attempt + 1)

/-- `upload_with_retry(s3_client, file_path, bucket, key, config,
max_retries=3)` (lines 213-222).  A Python `range(n)` is empty for
`n ≤ 0`, and the function then falls off the loop and returns `None`
(success, zero attempts); this is modelled by the fuel `maxRetries.toNat`. -/
def upload_with_retry (outcome : Nat → UploadOutcome) (maxRetries : Int := 3) :
    Except String Unit × Nat :=
  uploadLoop outcome maxRetries maxRetries.toNat 0

/-! ## Archive expander (`untar_file`, nemo_manifest.py lines 286-309, and
`decompress_gz_file`, lines 312-335) -/

/-- One member of a tar archive, as seen through `tarfile`:
its `name` and whether `member.isfile()` holds. -/
structure TarMember where
  name : String
  isFile : Bool
deriving DecidableEq, Repr

/-- `untar_file(file_id, file_path, temp_dir, context)` (lines 286-309):
extracts all members and returns
`[member.name for member in tar.getmembers() if member.isfile()]`,
the raw member names, in archive order, unchanged. -/
def untar_file (members : List TarMember) : List String :=
  (members.filter fun m => m.isFile).map fun m => m.name

/-- Python `s[:-n]` for a nonnegative `n`: all but the last `n`
characters. -/
def strDropRight (s : String) (n : Nat) : String :=
  String.mk (s.data.take (s.data.length - n))

/-- `decompress_gz_file(file_path, temp_dir, context)` (lines 312-335),
acting on the list `fs` of file names present in `temp_dir`:
computes `decompressed_name = file_name[:-3]`, writes the decompressed
file (adding it to the directory), then unlinks the compressed file.
Returns the decompressed name and the new directory contents.
Note: this function is defined in the source but never called by
`nemo_manifest` or `untar_file`. -/
def decompress_gz_file (file_name : String) (fs : List String) : String × List String :=
  let decompressed_name := strDropRight file_name 3
  (decompressed_name, (fs ++ [decompressed_name]).erase file_name)

/-! ## Sensor URL parsing (`parse_url_path_prefix`, sensor.py lines 103-129) -/

/-- Scans for the first occurrence of `"://"` and returns what follows it
(the start of `urlparse`'s netloc), or `none` if absent. -/
def afterSchemeSep : List Char → Option (List Char)
  | ':' :: '/' :: '/' :: rest => some rest
  | _ :: xs => afterSchemeSep xs
  | [] => none

/-- The `path` component produced by `urllib.parse.urlparse` for the URL
shapes this repository handles (no query or fragment): for
`scheme://netloc/path...` it is everything from the first `/` after the
netloc on (empty if the netloc is not followed by a slash); a string with
no `"://"` is a relative reference whose path is the whole string. -/
def urlPath (url : String) : List Char :=
  match afterSchemeSep url.data with
  | some rest => rest.dropWhile fun c => c ≠ '/'
  | none => url.data

/-- Python `path.rfind("/")`: index of the last `'/'`, as an `Option`
(`none` for Python's `-1`). -/
def rfindSlash : List Char → Option Nat
  | [] => none
  | c :: xs =>
    match rfindSlash xs with
    | some i => some (i + 1)
    | none => if c = '/' then some 0 else none

/-- `parse_url_path_prefix(url)` (sensor.py lines 103-129): take the URL's
path, find the last `'/'`; if there is none return `""`, else return
`path[1:last_slash_pos]` (everything before the last slash, with the first
character dropped). -/
def parse_url_path_prefix (url : String) : String :=
  let path := urlPath url
  match rfindSlash path with
  | none => ""
  | some i => String.mk ((path.drop 1).take (i - 1))

/-! ## Transfer pipeline (`nemo_manifest`, nemo_manifest.py lines 84-135) -/

/-- Failure raised by the tar extraction step (corrupt or unreadable
archive). -/
inductive TarError
  | corrupt
deriving DecidableEq, Repr

/-- The ways a `nemo_manifest` invocation can fail: the `ValueError` for a
missing `SCRATCH_PATH` (line 96), a propagated `download_file` error, a
propagated extraction error, or a propagated upload error (carrying the
failing unit's name and the backend error code). -/
inductive PipeError
  | noScratchPath
  | download (e : DlError)
  | untar (e : TarError)
  | upload (unitName : String) (code : String)
deriving DecidableEq, Repr

/-- Outcomes of the external calls one `nemo_manifest` invocation makes:
the `SCRATCH_PATH` environment value, the result of `download_file`, the
result of `untar_file` (consulted only for `.tar` payloads), and the
result of `upload_with_retry` for each file name (`none` = success,
`some code` = raises a backend error with that code). -/
structure PipelineEnv where
  scratch_path : Option String
  downloadResult : Except DlError Unit
  untarResult : Except TarError (List String)
  uploadResult : String → Option String

/-- Observable filesystem/store state of one `nemo_manifest` invocation:
whether the `tempfile.mkdtemp` Workspace directory currently exists, the
names uploaded to the destination store so far (in upload order), and the
local files deleted after their successful upload (in order). -/
structure PipeState where
  tempDirExists : Bool
  uploaded : List String
  deletedLocal : List String
deriving DecidableEq, Repr

/-- Python `s.endswith(suffix)`. -/
def strEndsWith (s suffix : String) : Bool :=
  s.data.drop (s.data.length - suffix.data.length) == suffix.data

/-- The upload loop of `nemo_manifest` (lines 119-129): for each file, in
order, upload it (propagating any failure immediately) and, on success,
delete the local file. -/
def uploadAll (env : PipelineEnv) : List String → PipeState →
    Except PipeError Unit × PipeState
  | [], st => (.ok (), st)
  | f :: rest, st =>
    match env.uploadResult f with
    | some code => (.error (.upload f code), st)
    | none =>
      uploadAll env rest
        { st with uploaded := st.uploaded ++ [f],
                  deletedLocal := st.deletedLocal ++ [f] }

/-- Body of the `try:` block of `nemo_manifest` (lines 99-131): download,
then extract if `file_id` ends in `.tar` (else the single file is the sole
transfer unit), then upload each unit in order. -/
def pipelineBody (env : PipelineEnv) (config : NeMOFile) (st : PipeState) :
    Except PipeError NeMOFile × PipeState :=
  match env.downloadResult with
  | .error e => (.error (.download e), st)
  | .ok _ =>
    let filesE : Except PipeError (List String) :=
      if strEndsWith config.file_id ".tar" then
        match env.untarResult with
        | .error e => .error (.untar e)
        | .ok files => .ok files
      else
        .ok [config.file_id]
    match filesE with
    | .error e => (.error e, st)
    | .ok files =>
      match uploadAll env files st with
      | (.ok _, st2) => (.ok config, st2)
      | (.error e, st2) => (.error e, st2)

/-- `nemo_manifest(context, s3, config)` (lines 84-135): check
`SCRATCH_PATH` (raising before any directory is created if it is unset or
empty), create the Workspace via `tempfile.mkdtemp`, run the body, and —
in the `finally:` block — remove the Workspace with `shutil.rmtree`
whatever the body's outcome was.  On success the config is returned
(line 131). -/
def nemo_manifest (env : PipelineEnv) (config : NeMOFile) :
    Except PipeError NeMOFile × PipeState :=
  match env.scratch_path with
  | none => (.error .noScratchPath, ⟨false, [], []⟩)
  | some p =>
    if p.isEmpty then
      (.error .noScratchPath, ⟨false, [], []⟩)
    else
      let r := pipelineBody env config ⟨true, [], []⟩
      (r.1, { r.2 with tempDirExists := false })

deriving instance DecidableEq for Except

/-! ## Helper lemmas -/

/-- With a positive advisory total size the chunk loop never divides by
zero: it completes and writes exactly the concatenation of the chunks. -/
theorem streamChunks_completed {t : Nat} (ht : t ≠ 0) :
    ∀ (chunks : List (List Nat)) (d p : Nat) (w : List Nat),
      streamChunks t chunks d p w = (.completed, w ++ chunks.flatten) := by
  intro chunks
  induction chunks with
  | nil => intro d p w; simp [streamChunks]
  | cons c rest ih =>
    intro d p w
    by_cases hc : c.isEmpty
    · have hc2 : c = [] := by simpa using hc
      subst hc2
      simpa [streamChunks] using ih d p w
    · simp [streamChunks, hc, ht, ih]

/-! ## C1 -/

/-- C1: for every pipeline invocation of `nemo_manifest` — whatever the
outcomes of the download, extraction and upload calls, and whether the
result is success or an error raised at any phase — the temporary
Workspace directory no longer exists when the invocation exits. -/
theorem workspace_cleanup (env : PipelineEnv) (config : NeMOFile) :
    (nemo_manifest env config).2.tempDirExists = false := by
  unfold nemo_manifest
  cases env.scratch_path with
  | none => rfl
  | some p => by_cases hp : p.isEmpty <;> simp [hp]

/-! ## C2 -/

/-- C2: a download whose bytes are fully received but whose computed MD5
digest differs from the expected checksum fails at once with the distinct
checksum-mismatch error, and the downloaded file is left on disk.  The
attempt function beyond index 0 is arbitrary, so no retry attempt is
consumed: the result is fixed by the first attempt alone. -/
theorem checksum_mismatch_immediate (md5hex : List Nat → String)
    (cfg : NeMOFile) (attempts : Nat → AttemptSpec) (n : Nat)
    (chunks : List (List Nat)) (h0 : attempts 0 = .body (some n) chunks none)
    (hn : n ≠ 0) (hmm : md5hex chunks.flatten ≠ cfg.md5) :
    download_file md5hex cfg attempts =
      (.error (.checksumMismatch cfg.md5 (md5hex chunks.flatten)),
        some chunks.flatten) := by
  unfold download_file downloadLoop
  rw [h0]
  simp [streamChunks_completed hn, hmm]

/-- C2 witness. -/
theorem checksum_mismatch_immediate_witness :
    download_file (fun _ => "ab") ⟨"f4", "cd", 1, "u", "s", "p"⟩
        (fun _ => .body (some 1) [[9]] none) =
      (.error (.checksumMismatch "cd" "ab"), some [9]) :=
  checksum_mismatch_immediate (fun _ => "ab") ⟨"f4", "cd", 1, "u", "s", "p"⟩
    (fun _ => .body (some 1) [[9]] none) 1 [[9]] rfl one_ne_zero (by decide)

/-! ## C5 -/

/-- C5: evaluation of `download_file` at the failing input — a response
with no `content-length` header (so `total_size = int(headers.get(
'content-length', 0)) = 0`) whose body delivers one nonempty chunk.  The
claim (and the spec) say the download completes with percentage progress
disabled; the code instead raises `ZeroDivisionError` at
`int((downloaded / total_size) * 100)`, leaving the partial file on
disk. -/
theorem missing_content_length_zero_div :
    download_file (fun _ => "d41d8cd98f00b204e9800998ecf8427e")
        ⟨"f3", "d41d8cd98f00b204e9800998ecf8427e", 1, "u", "s", "p"⟩
        (fun _ => .body none [[65]] none) =
      (.error .zeroDiv, some [65]) := rfl

/-! ## C7 -/

/-- C7 counterexample: a completed download whose computed digest `"ab"`
differs from the expected checksum `"AB"` only in letter case is rejected
with a checksum-mismatch error — the comparison `file_md5 == config.md5`
is exact, not case-insensitive as the claim states. -/
theorem checksum_compare_case_cex :
    download_file (fun _ => "ab") ⟨"f1", "AB", 1, "u", "s", "p"⟩
        (fun _ => .body (some 1) [[0]] none) =
      (.error (.checksumMismatch "AB" "ab"), some [0]) ∧
    (download_file (fun _ => "ab") ⟨"f1", "AB", 1, "u", "s", "p"⟩
        (fun _ => .body (some 1) [[0]] none)).1 ≠ .ok () := by
  decide

/-- C7 amended: for every completed download, the computed hex digest is
compared to the expected checksum by exact (case-sensitive) string
equality: the download is accepted exactly when the two strings are
identical. -/
theorem checksum_compare_exact (md5hex : List Nat → String) (cfg : NeMOFile)
    (attempts : Nat → AttemptSpec) (n : Nat) (chunks : List (List Nat))
    (h0 : attempts 0 = .body (some n) chunks none) (hn : n ≠ 0) :
    (download_file md5hex cfg attempts).1 = .ok () ↔
      md5hex chunks.flatten = cfg.md5 := by
  unfold download_file downloadLoop
  rw [h0]
  by_cases h : md5hex chunks.flatten = cfg.md5 <;>
    simp [streamChunks_completed hn, h]

/-- C7 amended witness. -/
theorem checksum_compare_exact_witness :
    (download_file (fun _ => "ab") ⟨"f5", "ab", 1, "u", "s", "p"⟩
        (fun _ => .body (some 1) [[0]] none)).1 = .ok () :=
  (checksum_compare_exact (fun _ => "ab") ⟨"f5", "ab", 1, "u", "s", "p"⟩
    (fun _ => .body (some 1) [[0]] none) 1 [[0]] rfl one_ne_zero).mpr rfl

/-! ## C4 -/

/-- C4 counterexample: a download hitting a transient connection error
during the body read on all three attempts, each after writing one byte.
Contrary to the claim, the outcome is the re-raised underlying transient
error (the distinct "download exhausted" `Exception` of line 283 is
unreachable), and the final attempt's partial file remains on disk —
cleanup runs only between attempts. -/
theorem retry_exhaustion_cex :
    download_file (fun _ => "aa") ⟨"f2", "aa", 1, "u", "s", "p"⟩
        (fun _ => .body (some 1) [[7]] (some .connection)) =
      (.error (.transient .connection), some [7]) ∧
    (∀ a : Nat, (download_file (fun _ => "aa") ⟨"f2", "aa", 1, "u", "s", "p"⟩
        (fun _ => .body (some 1) [[7]] (some .connection))).1 ≠
          .error (.exhausted "f2" a)) ∧
    (download_file (fun _ => "aa") ⟨"f2", "aa", 1, "u", "s", "p"⟩
        (fun _ => .body (some 1) [[7]] (some .connection))).2 ≠ none := by
  refine ⟨rfl, fun a => ?_, by decide⟩
  intro h
  rw [show (download_file (fun _ => "aa") ⟨"f2", "aa", 1, "u", "s", "p"⟩
      (fun _ => .body (some 1) [[7]] (some .connection))).1 =
        .error (.transient .connection) from rfl] at h
  simp at h

/-- C4 amended: a download that fails with a transient network error
during the body read on every attempt fails permanently after exactly 3
attempts (the attempt function beyond index 2 is arbitrary); the partial
file is discarded between attempts, but the error raised is the re-raised
underlying transient exception of the final attempt — not a distinct
"download exhausted" error — and the final attempt's partial output file
remains on disk. -/
theorem retry_exhaustion_amended (md5hex : List Nat → String) (cfg : NeMOFile)
    (attempts : Nat → AttemptSpec) (n0 n1 n2 : Nat)
    (ch0 ch1 ch2 : List (List Nat)) (k0 k1 k2 : TransientKind)
    (h0 : attempts 0 = .body (some n0) ch0 (some k0)) (hn0 : n0 ≠ 0)
    (h1 : attempts 1 = .body (some n1) ch1 (some k1)) (hn1 : n1 ≠ 0)
    (h2 : attempts 2 = .body (some n2) ch2 (some k2)) (hn2 : n2 ≠ 0) :
    download_file md5hex cfg attempts =
      (.error (.transient k2), some ch2.flatten) := by
  unfold download_file
  simp [downloadLoop, h0, h1, h2, streamChunks_completed hn0,
    streamChunks_completed hn1, streamChunks_completed hn2]

/-- C4 amended witness. -/
theorem retry_exhaustion_amended_witness :
    download_file (fun _ => "bb") ⟨"f6", "bb", 1, "u", "s", "p"⟩
        (fun _ => .body (some 1) [[8]] (some .readTimeout)) =
      (.error (.transient .readTimeout), some [8]) :=
  retry_exhaustion_amended (fun _ => "bb") ⟨"f6", "bb", 1, "u", "s", "p"⟩
    (fun _ => .body (some 1) [[8]] (some .readTimeout)) 1 1 1 [[8]] [[8]] [[8]]
    .readTimeout .readTimeout .readTimeout rfl one_ne_zero rfl one_ne_zero
    rfl one_ne_zero

/-! ## C6 -/

/-- The upload loop walks the unit list in order: units before the first
failing unit are uploaded and their local files deleted, the failing unit
aborts the loop with an error, and units at or after it are untouched. -/
theorem uploadAll_stops_at_failure (env : PipelineEnv) (u : String)
    (code : String) (hfail : env.uploadResult u = some code) :
    ∀ (pre post : List String) (st : PipeState),
      (∀ x ∈ pre, env.uploadResult x = none) →
      uploadAll env (pre ++ u :: post) st =
        (.error (.upload u code),
          { st with uploaded := st.uploaded ++ pre,
                    deletedLocal := st.deletedLocal ++ pre }) := by
  intro pre
  induction pre with
  | nil =>
    intro post st _
    simp [uploadAll, hfail]
  | cons p rest ih =>
    intro post st hok
    have hp : env.uploadResult p = none := hok p (by simp)
    have hrest : ∀ x ∈ rest, env.uploadResult x = none :=
      fun x hx => hok x (by simp [hx])
    simp [uploadAll, hp, ih post _ hrest]

/-- C6: when an entry expands to the ordered units `pre ++ u :: post` and
the uploader succeeds on every unit in `pre` but fails on `u`, the
pipeline uploads exactly the units of `pre`, in order, deleting each local
file after its upload; `u` and everything after it are not uploaded
(nothing is rolled back), and the invocation reports failure. -/
theorem upload_failure_aborts (env : PipelineEnv) (config : NeMOFile)
    (sp : String) (pre post : List String) (u : String) (code : String)
    (hsp : env.scratch_path = some sp) (hne : sp.isEmpty = false)
    (hdl : env.downloadResult = .ok ())
    (htar : strEndsWith config.file_id ".tar" = true)
    (hum : env.untarResult = .ok (pre ++ u :: post))
    (hok : ∀ x ∈ pre, env.uploadResult x = none)
    (hfail : env.uploadResult u = some code) :
    (nemo_manifest env config).1 = .error (.upload u code) ∧
    (nemo_manifest env config).2.uploaded = pre ∧
    (nemo_manifest env config).2.deletedLocal = pre := by
  unfold nemo_manifest pipelineBody
  rw [hsp]
  simp [hne, hdl, htar, hum,
    uploadAll_stops_at_failure env u code hfail pre post _ hok]

/-- Environment for the C6 witness: the entry expands to
`["U1", "U2", "U3"]` and the uploader fails on `"U2"`. -/
def envC6 : PipelineEnv :=
  ⟨some "/scratch", .ok (), .ok ["U1", "U2", "U3"],
    fun f => if f = "U2" then some "InternalError" else none⟩

/-- C6 witness. -/
theorem upload_failure_aborts_witness :
    (nemo_manifest envC6 ⟨"a.tar", "m", 1, "u", "s", "p"⟩).1 =
        .error (.upload "U2" "InternalError") ∧
    (nemo_manifest envC6 ⟨"a.tar", "m", 1, "u", "s", "p"⟩).2.uploaded = ["U1"] ∧
    (nemo_manifest envC6 ⟨"a.tar", "m", 1, "u", "s", "p"⟩).2.deletedLocal =
        ["U1"] :=
  upload_failure_aborts envC6 ⟨"a.tar", "m", 1, "u", "s", "p"⟩ "/scratch"
    ["U1"] ["U3"] "U2" "InternalError" rfl rfl rfl (by decide) rfl
    (by decide) (by decide)

/-! ## C8 -/

/-- C8: `upload_with_retry` with its fixed budget of 3 attempts retries
only on the backend error code `"InvalidPart"`: if every attempt reports
`"InvalidPart"` the upload fails after exactly 3 attempts, and if some
attempt (preceded only by `"InvalidPart"` failures) reports any other
code, that error propagates immediately with no further attempt. -/
theorem upload_retry_only_invalid_part (outcome : Nat → UploadOutcome)
    (c : String) :
    ((∀ i, i < 3 → outcome i = .clientError "InvalidPart") →
      upload_with_retry outcome 3 = (.error "InvalidPart", 3)) ∧
    (∀ j, j < 3 → (∀ i, i < j → outcome i = .clientError "InvalidPart") →
      outcome j = .clientError c → c ≠ "InvalidPart" →
      upload_with_retry outcome 3 = (.error c, j + 1)) := by
  constructor
  · intro h
    have h0 := h 0 (by omega)
    have h1 := h 1 (by omega)
    have h2 := h 2 (by omega)
    simp [upload_with_retry, uploadLoop, h0, h1, h2,
      (by decide : (0 : Int) < 3 - 1), (by decide : (1 : Int) < 3 - 1),
      (by decide : ¬ (2 : Int) < 3 - 1)]
  · intro j hj hpre hcj hc
    interval_cases j
    · simp [upload_with_retry, uploadLoop, hcj, hc]
    · have h0 := hpre 0 (by omega)
      simp [upload_with_retry, uploadLoop, h0, hcj, hc,
        (by decide : (0 : Int) < 3 - 1)]
    · have h0 := hpre 0 (by omega)
      have h1 := hpre 1 (by omega)
      simp [upload_with_retry, uploadLoop, h0, h1, hcj, hc,
        (by decide : (0 : Int) < 3 - 1), (by decide : (1 : Int) < 3 - 1)]

/-- C8 witness. -/
theorem upload_retry_only_invalid_part_witness :
    upload_with_retry (fun _ => .clientError "InvalidPart") 3 =
        (.error "InvalidPart", 3) ∧
    upload_with_retry (fun _ => .clientError "AccessDenied") 3 =
        (.error "AccessDenied", 1) :=
  ⟨(upload_retry_only_invalid_part (fun _ => .clientError "InvalidPart")
      "AccessDenied").1 (fun _ _ => rfl),
   (upload_retry_only_invalid_part (fun _ => .clientError "AccessDenied")
      "AccessDenied").2 0 (by omega) (fun i hi => absurd hi (by omega)) rfl
      (by decide)⟩

/-! ## C10 -/

/-- The attempt counter returned by `uploadLoop` never decreases below its
starting value. -/
theorem uploadLoop_attempt_le (outcome : Nat → UploadOutcome) (mR : Int) :
    ∀ (r a : Nat), a ≤ (uploadLoop outcome mR r a).2 := by
  intro r
  induction r with
  | zero => intro a; simp [uploadLoop]
  | succ r ih =>
    intro a
    rcases h : outcome a with _ | code
    · simp [uploadLoop, h]
    · by_cases hcond : code = "InvalidPart" ∧ (a : Int) < mR - 1
      · calc a ≤ a + 1 := Nat.le_succ a
          _ ≤ (uploadLoop outcome mR r (a + 1)).2 := ih (a + 1)
          _ = (uploadLoop outcome mR (r + 1) a).2 := by
              simp [uploadLoop, h, hcond]
      · simp [uploadLoop, h, hcond]

/-- C10: calling `upload_with_retry` with `max_retries ≤ 0` makes
`range(max_retries)` empty, so the function returns successfully having
performed zero upload attempts; with `max_retries ≥ 1` (the default is 3)
at least one attempt is performed. -/
theorem upload_retry_nonpositive_budget (outcome : Nat → UploadOutcome)
    (m : Int) :
    (m ≤ 0 → upload_with_retry outcome m = (.ok (), 0)) ∧
    (1 ≤ m → 1 ≤ (upload_with_retry outcome m).2) := by
  constructor
  · intro hm
    simp [upload_with_retry, Int.toNat_of_nonpos hm, uploadLoop]
  · intro hm
    obtain ⟨r, hr⟩ : ∃ r, m.toNat = r + 1 := ⟨m.toNat - 1, by omega⟩
    unfold upload_with_retry
    rw [hr]
    rcases h : outcome 0 with _ | code
    · simp [uploadLoop, h]
    · simp only [uploadLoop, h]
      split
      · exact uploadLoop_attempt_le outcome m r 1
      · simp

/-- C10 witness. -/
theorem upload_retry_nonpositive_budget_witness :
    upload_with_retry (fun _ => .ok) 0 = (.ok (), 0) ∧
    1 ≤ (upload_with_retry (fun _ => .ok) 3).2 :=
  ⟨(upload_retry_nonpositive_budget (fun _ => .ok) 0).1 (by decide),
   (upload_retry_nonpositive_budget (fun _ => .ok) 3).2 (by decide)⟩

/-! ## C3 -/

/-- C3 counterexample: extracting an archive whose sole regular-file
member is named `"x.fastq.gz"` returns the compressed name unchanged —
the expansion step (`untar_file`) performs no decompression
(`decompress_gz_file` is defined but never invoked by the pipeline), so
the returned sequence contains the compressed name, not the decompressed
one, contrary to the claim. -/
theorem gz_member_not_decompressed_cex :
    untar_file [⟨"x.fastq.gz", true⟩] = ["x.fastq.gz"] ∧
    "x.fastq" ∉ untar_file [⟨"x.fastq.gz", true⟩] := by
  decide

/-- Python `s[:-3]` applied to a string that ends in a 3-character suffix
strips exactly that suffix. -/
theorem strDropRight_append (base suffix : String)
    (h3 : suffix.data.length = 3) : strDropRight (base ++ suffix) 3 = base := by
  unfold strDropRight
  rw [String.data_append, List.length_append, h3, Nat.add_sub_cancel,
    List.take_left]

/-- C3 amended: the archive-expansion step (`untar_file`) returns every
regular-file member's name unchanged — including names ending in `.gz` —
because the pipeline never invokes the decompression helper; the
standalone `decompress_gz_file` helper, were it called, would produce the
sibling name with the `.gz` suffix stripped and delete the compressed
intermediate from the directory. -/
theorem untar_keeps_compressed_names (members : List TarMember)
    (m : TarMember) (hm : m ∈ members) (hf : m.isFile = true)
    (base : String) (fs : List String) :
    m.name ∈ untar_file members ∧
    (decompress_gz_file (base ++ ".gz") fs).1 = base ∧
    (decompress_gz_file (base ++ ".gz") [base ++ ".gz"]).2 = [base] := by
  refine ⟨?_, ?_, ?_⟩
  · exact List.mem_map_of_mem _ (List.mem_filter.mpr ⟨hm, hf⟩)
  · simp [decompress_gz_file, strDropRight_append base ".gz" rfl]
  · simp [decompress_gz_file, strDropRight_append base ".gz" rfl,
      List.erase_cons_head]

/-- C3 amended witness. -/
theorem untar_keeps_compressed_names_witness :
    "x.fastq.gz" ∈ untar_file [⟨"x.fastq.gz", true⟩] ∧
    (decompress_gz_file ("x.fastq" ++ ".gz") ["other.txt"]).1 = "x.fastq" ∧
    (decompress_gz_file ("x.fastq" ++ ".gz") ["x.fastq" ++ ".gz"]).2 =
        ["x.fastq"] :=
  untar_keeps_compressed_names [⟨"x.fastq.gz", true⟩] ⟨"x.fastq.gz", true⟩
    (List.mem_singleton.mpr rfl) rfl "x.fastq" ["other.txt"]

/-! ## C9 -/

/-- Scanning `"https://" ++ l` for the scheme separator yields `l`. -/
theorem afterSchemeSep_https (l : List Char) :
    afterSchemeSep
      ('h' :: 't' :: 't' :: 'p' :: 's' :: ':' :: '/' :: '/' :: l) = some l :=
  rfl

/-- Dropping the netloc (a slash-free character list) stops at the first
slash of the path. -/
theorem dropWhile_netloc (rest : List Char) :
    ∀ host : List Char, (∀ c ∈ host, c ≠ '/') →
      List.dropWhile (fun c => c ≠ '/') (host ++ '/' :: rest) =
        '/' :: rest := by
  intro host
  induction host with
  | nil => intro _; simp [List.dropWhile]
  | cons c xs ih =>
    intro h
    have hc : c ≠ '/' := h c (by simp)
    have hxs := ih fun x hx => h x (by simp [hx])
    simpa [List.dropWhile_cons, hc] using hxs

/-- A character list without a slash has no last-slash index. -/
theorem rfindSlash_no_slash (ys : List Char) (h : '/' ∉ ys) :
    rfindSlash ys = none := by
  induction ys with
  | nil => rfl
  | cons c xs ih =>
    have hxs : '/' ∉ xs := fun hm => h (List.mem_cons_of_mem _ hm)
    have hc : ¬ c = '/' := fun he => h (he ▸ List.mem_cons_self c xs)
    simp [rfindSlash, ih hxs, hc]

/-- The last slash of `xs ++ '/' :: ys` with `ys` slash-free sits at index
`xs.length`. -/
theorem rfindSlash_append (ys : List Char) (h : '/' ∉ ys) :
    ∀ xs : List Char, rfindSlash (xs ++ '/' :: ys) = some xs.length := by
  intro xs
  induction xs with
  | nil => simp [rfindSlash, rfindSlash_no_slash ys h]
  | cons c zs ih => simp [rfindSlash, ih]

/-- Unfolding lemma for ` parse_url_path_prefix`. -/
theorem parse_url_path_prefix_eq (url : String) :
    parse_url_path_prefix url =
      match rfindSlash (urlPath url) with
      | none => ""
      | some i => String.mk (((urlPath url).drop 1).take (i - 1)) := rfl

/-- C9: for a URL `https://host/p/f` whose host and final segment contain
no slash, ` parse_url_path_prefix` returns the URL path with the final
segment removed and the leading slash stripped (`p`, which may itself
contain slashes, e.g. `a/b/c`); when the path consists of the file name
alone (`https://host/f`), the returned prefix is empty. -/
theorem parse_url_path_prefix_correct (host pre fname : String)
    (hh : ∀ c ∈ host.data, c ≠ '/') (hf : ∀ c ∈ fname.data, c ≠ '/') :
    parse_url_path_prefix
        ("https://" ++ host ++ "/" ++ pre ++ "/" ++ fname) = pre ∧
    parse_url_path_prefix ("https://" ++ host ++ "/" ++ fname) = "" := by
  have hfn : '/' ∉ fname.data := fun hm => hf '/' hm rfl
  constructor
  · have hdata : ("https://" ++ host ++ "/" ++ pre ++ "/" ++ fname).data =
        'h' :: 't' :: 't' :: 'p' :: 's' :: ':' :: '/' :: '/' ::
          (host.data ++ '/' :: (pre.data ++ '/' :: fname.data)) := by
      simp only [String.data_append, List.append_assoc]
      rfl
    have hpath :
        urlPath ("https://" ++ host ++ "/" ++ pre ++ "/" ++ fname) =
          '/' :: (pre.data ++ '/' :: fname.data) := by
      unfold urlPath
      rw [hdata, afterSchemeSep_https]
      exact dropWhile_netloc _ host.data hh
    have hrf : rfindSlash ('/' :: (pre.data ++ '/' :: fname.data)) =
        some (pre.data.length + 1) :=
      rfindSlash_append fname.data hfn ('/' :: pre.data)
    rw [parse_url_path_prefix_eq, hpath, hrf]
    show String.mk
        ((pre.data ++ '/' :: fname.data).take (pre.data.length + 1 - 1)) = pre
    rw [Nat.add_sub_cancel, List.take_left]
  · have hdata : ("https://" ++ host ++ "/" ++ fname).data =
        'h' :: 't' :: 't' :: 'p' :: 's' :: ':' :: '/' :: '/' ::
          (host.data ++ '/' :: fname.data) := by
      simp only [String.data_append, List.append_assoc]
      rfl
    have hpath : urlPath ("https://" ++ host ++ "/" ++ fname) =
        '/' :: fname.data := by
      unfold urlPath
      rw [hdata, afterSchemeSep_https]
      exact dropWhile_netloc _ host.data hh
    have hrf : rfindSlash ('/' :: fname.data) = some 0 :=
      rfindSlash_append fname.data hfn []
    rw [parse_url_path_prefix_eq, hpath, hrf]
    rfl

/-- C9 witness. -/
theorem parse_url_path_prefix_correct_witness :
    parse_url_path_prefix
        ("https://" ++ "host" ++ "/" ++ "a/b/c" ++ "/" ++ "file.ext") =
      "a/b/c" ∧
    parse_url_path_prefix ("https://" ++ "host" ++ "/" ++ "file.ext") = "" :=
  parse_url_path_prefix_correct "host" "a/b/c" "file.ext"
    (by decide) (by decide)
